import Mathlib

/-!
Verification of the systrack-api background-job subsystem.

The development shallowly embeds the TypeScript sources:
  * `src/server/worker/serviceSyncWorker.ts` (`processServiceSyncJob`),
  * the service-sync scheduler (`ServiceSyncScheduler.scheduleServiceSyncJobs`),
  * `src/server/lib/queue.ts` (queue options of `serviceSyncQueue`),
  * `src/server/whatsapp/services/messageBroker.ts`
    (`sendTriggerToGroup`, `waitForResult`, `handleMessageResult`),
  * the WhatsApp `CommandHandler.handleCommand` dispatcher.

JavaScript strings are modelled as `List Char`; JavaScript integer-valued
numbers (ids, timestamps, counters) as `Nat`; `Math.random()` draws and the
millisecond delays derived from them as `ℚ`.  Database tables are lists of
rows, and the fallible paths (thrown errors / rejected promises) are
`Except String`.
-/

namespace Systrack

/-! ### JavaScript string primitives over `List Char` -/

/-- Model of JavaScript `String.prototype.trim` (ASCII whitespace suffices
for the inputs the code handles). -/
def jsTrim (l : List Char) : List Char :=
  ((l.dropWhile Char.isWhitespace).reverse.dropWhile Char.isWhitespace).reverse

/-- Model of JavaScript `String.prototype.toLowerCase` on ASCII text. -/
def jsToLower (l : List Char) : List Char :=
  l.map Char.toLower

/-- Model of JavaScript `String.prototype.startsWith`. -/
def startsWithChars (s pat : List Char) : Bool :=
  pat.isPrefixOf s

/-- Decimal digit list of a natural number, with explicit fuel so that the
definition is structurally recursive (the fuel `n + 1` always suffices).
This models how a JavaScript template literal renders a non-negative
integer such as `service.id` or `Date.now()`. -/
def natDigitsAux : Nat → Nat → List Char
  | 0, _ => []
  | fuel + 1, n =>
    if n < 10 then [Nat.digitChar n]
    else natDigitsAux fuel (n / 10) ++ [Nat.digitChar (n % 10)]

/-- Decimal rendering of a natural number (`${n}` in a template literal). -/
def natDigits (n : Nat) : List Char :=
  natDigitsAux (n + 1) n

theorem natDigitsAux_fuel_irrel (fuel fuel' n : Nat) (h : n < fuel) (h' : n < fuel') :
    natDigitsAux fuel n = natDigitsAux fuel' n := by
  induction n using Nat.strong_induction_on generalizing fuel fuel' with
  | _ n ih =>
    match fuel, fuel' with
    | f + 1, f' + 1 =>
      by_cases h10 : n < 10
      · simp [natDigitsAux, h10]
      · have hdiv : n / 10 < n := Nat.div_lt_self (by omega) (by omega)
        simp only [natDigitsAux, h10, if_false]
        rw [ih (n / 10) hdiv f f' (by omega) (by omega)]

theorem natDigits_eq (n : Nat) :
    natDigits n = if n < 10 then [Nat.digitChar n]
      else natDigits (n / 10) ++ [Nat.digitChar (n % 10)] := by
  by_cases h10 : n < 10
  · rw [if_pos h10]
    show natDigitsAux (n + 1) n = _
    simp only [natDigitsAux, if_pos h10]
  · have hdiv : n / 10 < n := Nat.div_lt_self (by omega) (by omega)
    rw [if_neg h10]
    show natDigitsAux (n + 1) n = _
    simp only [natDigitsAux, if_neg h10]
    rw [natDigitsAux_fuel_irrel n (n / 10 + 1) (n / 10) (by omega) (by omega)]
    rfl

theorem natDigits_ne_nil (n : Nat) : natDigits n ≠ [] := by
  rw [natDigits_eq]
  by_cases h10 : n < 10 <;> simp [h10]

theorem digitChar_inj_of_lt :
    ∀ d1 < 10, ∀ d2 < 10, Nat.digitChar d1 = Nat.digitChar d2 → d1 = d2 := by decide

theorem natDigits_inj (a b : Nat) (h : natDigits a = natDigits b) : a = b := by
  induction a using Nat.strong_induction_on generalizing b with
  | _ a ih =>
    rw [natDigits_eq a, natDigits_eq b] at h
    by_cases ha : a < 10 <;> by_cases hb : b < 10
    · simp only [ha, hb, if_true, List.cons.injEq] at h
      exact digitChar_inj_of_lt a ha b hb h.1
    · exfalso
      simp only [ha, hb, if_true, if_false] at h
      have hlen := congrArg List.length h
      simp [List.length_append] at hlen
      exact natDigits_ne_nil _ hlen
    · exfalso
      simp only [ha, hb, if_true, if_false] at h
      have hlen := congrArg List.length h
      simp [List.length_append] at hlen
      exact natDigits_ne_nil _ hlen
    · simp only [ha, hb, if_false] at h
      have hparts := List.append_inj' h (by rfl)
      have hdiv : a / 10 = b / 10 :=
        ih (a / 10) (Nat.div_lt_self (by omega) (by omega)) (b / 10) hparts.1
      have hmod : a % 10 = b % 10 := by
        have := hparts.2
        simp only [List.cons.injEq] at this
        exact digitChar_inj_of_lt (a % 10) (Nat.mod_lt _ (by omega)) (b % 10)
          (Nat.mod_lt _ (by omega)) this.1
      omega

/-! ### Data model

Rows of the `services` and `service_logs` tables
(`src/server/db/schema/schema.ts`); the schema comments fix the encodings
`type`: 1 = server, 2 = vps, 3 = shared hosting, and
`status`: 1 = active, 0 = inactive.  Soft deletion is the nullable
`deletedAt` column. -/

structure Service where
  id : Nat
  name : List Char
  type : Nat
  status : Nat
  resStatusApiUrl : List Char
  resStatusApiKey : List Char
  deletedAt : Option Nat
deriving DecidableEq, Repr

/-- `SERVICE_TYPE.SHARED_HOSTING` (the schema comment in
`src/server/db/schema/schema.ts` fixes shared hosting to the value 3). -/
def SERVICE_TYPE_SHARED_HOSTING : Nat := 3

/-- One record of the remote history payload
(`SharedHostingHistoryResponse.data[i]`); `checked_at` is the source
observation timestamp in epoch milliseconds. -/
structure HistoryRecord where
  id : Nat
  disk_usage_mb : Nat
  file_count : Nat
  available_space_mb : Nat
  available_inode : Nat
  checked_at : Nat
deriving DecidableEq, Repr

/-- A row of the `service_logs` table as inserted by the sync worker. -/
structure ServiceLog where
  serviceId : Nat
  recordId : Nat
  data : HistoryRecord
  recordedAt : Nat
  deletedAt : Option Nat
deriving DecidableEq, Repr

/-- The outcome of `fetch(`...`/resource-usage/history`)` followed by
`.json()`: HTTP `ok`/`status` plus the parsed body's `success` flag and
`data` list. -/
structure FetchResponse where
  ok : Bool
  status : Nat
  success : Bool
  data : List HistoryRecord
deriving DecidableEq, Repr

/-! ### Sync worker (`src/server/worker/serviceSyncWorker.ts`)

`processServiceSyncJob`, with the database tables passed explicitly:
`services` is the `services` table, `logs` the `service_logs` table, and
the remote fetch outcome is the `resp` argument.  A thrown error is
`Except.error`; a normal return leaves the log table as the `Except.ok`
payload. -/

/-- `const listRecordIds = historyDataList.map((historyData) => historyData.id)`. -/
def listRecordIdsOf (historyDataList : List HistoryRecord) : List Nat :=
  historyDataList.map (·.id)

/-- The batched lookup
`select recordId from service_logs where serviceId = ... and recordId in
listRecordIds and deletedAt is null`, projected to the record ids. -/
def existingRecordIdsOf (logs : List ServiceLog) (serviceId : Nat)
    (listRecordIds : List Nat) : List Nat :=
  (logs.filter (fun l =>
    l.serviceId == serviceId && listRecordIds.contains l.recordId &&
      l.deletedAt == none)).map (·.recordId)

/-- `const newRecords = historyDataList.filter((record) =>
!existingRecordIds.some((existing) => existing.recordId === record.id))`. -/
def newRecordsOf (historyDataList : List HistoryRecord)
    (existingRecordIds : List Nat) : List HistoryRecord :=
  historyDataList.filter (fun record =>
    !(existingRecordIds.any (fun existing => existing == record.id)))

/-- `const valuesToInsert = newRecords.map(...)`. -/
def valuesToInsertOf (serviceId : Nat) (newRecords : List HistoryRecord) :
    List ServiceLog :=
  newRecords.map (fun record =>
    { serviceId := serviceId, recordId := record.id, data := record,
      recordedAt := record.checked_at, deletedAt := none : ServiceLog })

def processServiceSyncJob (services : List Service) (logs : List ServiceLog)
    (jobServiceId : Nat) (resp : FetchResponse) : Except String (List ServiceLog) :=
  -- select from services where id = serviceId and deletedAt is null
  match services.filter (fun s => s.id == jobServiceId && s.deletedAt == none) with
  | [] => .ok logs                                   -- not found or deleted: drop
  | service :: _ =>
    if service.type ≠ SERVICE_TYPE_SHARED_HOSTING then .ok logs  -- not shared hosting: skip
    else if service.status = 0 then .ok logs                     -- inactive: skip
    else if resp.ok = false then
      .error ("Failed to fetch history from res status API. Status: ".data ++
        natDigits resp.status).asString
    else if resp.success = false then
      .error "Failed to fetch history from res status API: API returned success=false"
    else if resp.data.length = 0 then .ok logs
    else if (newRecordsOf resp.data
        (existingRecordIdsOf logs service.id (listRecordIdsOf resp.data))).length = 0 then
      .ok logs
    else
      .ok (logs ++ valuesToInsertOf service.id (newRecordsOf resp.data
        (existingRecordIdsOf logs service.id (listRecordIdsOf resp.data))))

theorem mem_existingRecordIdsOf (logs : List ServiceLog) (sid rid : Nat)
    (ids : List Nat) :
    rid ∈ existingRecordIdsOf logs sid ids ↔
      ∃ l ∈ logs, l.serviceId = sid ∧ l.recordId = rid ∧ l.deletedAt = none ∧
        l.recordId ∈ ids := by
  simp only [existingRecordIdsOf, List.mem_map, List.mem_filter,
    Bool.and_eq_true, beq_iff_eq, List.contains, List.elem_iff]
  constructor
  · rintro ⟨l, ⟨hl, hcond⟩, hrid⟩
    exact ⟨l, hl, hcond.1.1, hrid, hcond.2, hcond.1.2⟩
  · rintro ⟨l, hl, hsid, hrid, hdel, hin⟩
    exact ⟨l, ⟨hl, ⟨⟨hsid, hin⟩, hdel⟩⟩, hrid⟩

theorem mem_newRecordsOf (historyDataList : List HistoryRecord)
    (existingRecordIds : List Nat) (r : HistoryRecord) :
    r ∈ newRecordsOf historyDataList existingRecordIds ↔
      r ∈ historyDataList ∧ r.id ∉ existingRecordIds := by
  simp only [newRecordsOf, List.mem_filter, Bool.not_eq_true', List.any_eq_false,
    beq_iff_eq]
  constructor
  · rintro ⟨h1, h2⟩
    exact ⟨h1, fun hm => h2 _ hm rfl⟩
  · rintro ⟨h1, h2⟩
    exact ⟨h1, fun x hx he => h2 (he ▸ hx)⟩

/-- After the batch insert the worker performed, every remote record id of
the same payload is present for the service, so a second pass filters all
of them out. -/
theorem newRecords_after_insert (historyDataList : List HistoryRecord)
    (logs : List ServiceLog) (sid : Nat) :
    newRecordsOf historyDataList
      (existingRecordIdsOf
        (logs ++ valuesToInsertOf sid
          (newRecordsOf historyDataList
            (existingRecordIdsOf logs sid (listRecordIdsOf historyDataList))))
        sid (listRecordIdsOf historyDataList)) = [] := by
  rw [newRecordsOf, List.filter_eq_nil_iff]
  intro r hr
  simp only [Bool.not_eq_true', Bool.not_eq_false, List.any_eq_true, beq_iff_eq]
  refine ⟨r.id, ?_, rfl⟩
  rw [mem_existingRecordIdsOf]
  by_cases hex : r.id ∈ existingRecordIdsOf logs sid (listRecordIdsOf historyDataList)
  · rcases (mem_existingRecordIdsOf _ _ _ _).mp hex with ⟨l, hl, hsid, hrid, hdel, hin⟩
    exact ⟨l, List.mem_append_left _ hl, hsid, hrid, hdel, hin⟩
  · have hnew : r ∈ newRecordsOf historyDataList
        (existingRecordIdsOf logs sid (listRecordIdsOf historyDataList)) :=
      (mem_newRecordsOf _ _ _).mpr ⟨hr, hex⟩
    have hins : ServiceLog.mk sid r.id r r.checked_at none ∈
        logs ++ valuesToInsertOf sid (newRecordsOf historyDataList
          (existingRecordIdsOf logs sid (listRecordIdsOf historyDataList))) :=
      List.mem_append_right _ (List.mem_map_of_mem _ hnew)
    exact ⟨ServiceLog.mk sid r.id r r.checked_at none, hins, rfl, rfl, rfl,
      List.mem_map_of_mem _ hr⟩

/-- C1.  Sync worker insertion is idempotent per external record id:
a successful run followed by a second run over the same remote payload and
service table leaves the log table unchanged, and a run never adds a row
whose (service id, external record id) pair is already present
(non-deleted) in the log table. -/
theorem serviceSyncJob_idempotent (services : List Service)
    (logs logs' : List ServiceLog) (sid : Nat) (resp : FetchResponse)
    (h : processServiceSyncJob services logs sid resp = .ok logs') :
    processServiceSyncJob services logs' sid resp = .ok logs' ∧
    ∀ l0 ∈ logs, l0.deletedAt = none →
      logs'.countP (fun l => l.serviceId == l0.serviceId && l.recordId == l0.recordId) =
        logs.countP (fun l => l.serviceId == l0.serviceId && l.recordId == l0.recordId) := by
  unfold processServiceSyncJob at h ⊢
  split at h
  · -- service not found or soft-deleted
    injection h with h
    subst h
    exact ⟨rfl, fun _ _ _ => rfl⟩
  · rename_i service rest heq
    split at h
    · -- not a shared-hosting service
      rename_i ht
      injection h with h
      subst h
      exact ⟨by rw [if_pos ht], fun _ _ _ => rfl⟩
    · rename_i ht
      rw [if_neg ht]
      split at h
      · -- inactive service
        rename_i hst
        injection h with h
        subst h
        exact ⟨by rw [if_pos hst], fun _ _ _ => rfl⟩
      · rename_i hst
        rw [if_neg hst]
        split at h
        · simp at h
        · rename_i hok
          rw [if_neg hok]
          split at h
          · simp at h
          · rename_i hsc
            rw [if_neg hsc]
            split at h
            · -- empty payload
              rename_i hlen
              injection h with h
              subst h
              exact ⟨by rw [if_pos hlen], fun _ _ _ => rfl⟩
            · rename_i hlen
              rw [if_neg hlen]
              split at h
              · -- nothing unseen: no insert
                rename_i hnew
                injection h with h
                subst h
                rw [if_pos hnew]
                exact ⟨rfl, fun _ _ _ => rfl⟩
              · -- the insert happened; a second pass sees every id as existing
                rename_i hnew
                injection h with h
                subst h
                have hzero := newRecords_after_insert resp.data logs service.id
                constructor
                · rw [if_pos (by rw [hzero]; rfl)]
                · intro l0 hl0 hdel
                  rw [List.countP_append]
                  have hvals : (valuesToInsertOf service.id (newRecordsOf resp.data
                      (existingRecordIdsOf logs service.id (listRecordIdsOf resp.data)))).countP
                      (fun l => l.serviceId == l0.serviceId && l.recordId == l0.recordId) = 0 := by
                    rw [List.countP_eq_zero]
                    intro v hv
                    rcases List.mem_map.mp hv with ⟨r, hrmem, rfl⟩
                    simp only [Bool.and_eq_true, beq_iff_eq, not_and]
                    intro hsid hrid
                    rcases (mem_newRecordsOf _ _ _).mp hrmem with ⟨hrdata, hnotex⟩
                    exact hnotex ((mem_existingRecordIdsOf _ _ _ _).mpr
                      ⟨l0, hl0, hsid.symm, hrid.symm, hdel,
                        hrid ▸ List.mem_map_of_mem _ hrdata⟩)
                  omega

/-- First-run inputs for the idempotence witness. -/
def svcW : Service :=
  ⟨7, "alpha".data, 3, 1, "https://res.example.com".data, "key".data, none⟩

def recW : HistoryRecord := ⟨100, 512, 1000, 2048, 5000, 1700000000000⟩

def respW : FetchResponse := ⟨true, 200, true, [recW]⟩

def logsW : List ServiceLog := [⟨7, 100, recW, 1700000000000, none⟩]

theorem serviceSyncJob_idempotent_witness :
    processServiceSyncJob [svcW] logsW 7 respW = .ok logsW :=
  (serviceSyncJob_idempotent [svcW] [] logsW 7 respW (by rfl)).1

/-- C6.  If the job's service is absent or soft-deleted (the eligibility
query returns no row), or the first returned row is not a shared-hosting
service or is inactive, the handler returns normally with the log table
unchanged — for every possible remote response, i.e. without consulting
the remote API. -/
theorem serviceSyncJob_skips_ineligible (services : List Service)
    (logs : List ServiceLog) (sid : Nat)
    (h : ∀ s, (services.filter (fun s => s.id == sid && s.deletedAt == none)).head? = some s →
      s.type ≠ SERVICE_TYPE_SHARED_HOSTING ∨ s.status = 0) :
    ∀ resp, processServiceSyncJob services logs sid resp = .ok logs := by
  intro resp
  unfold processServiceSyncJob
  split
  · rfl
  · rename_i service rest heq
    rcases h service (by rw [heq]; rfl) with ht | hs
    · rw [if_pos ht]
    · by_cases ht : service.type ≠ SERVICE_TYPE_SHARED_HOSTING
      · rw [if_pos ht]
      · rw [if_neg ht, if_pos hs]

/-- An inactive shared-hosting service for the skip witness. -/
def svcInactiveW : Service :=
  ⟨5, "beta".data, 3, 0, "https://res.example.com".data, "key".data, none⟩

theorem serviceSyncJob_skips_ineligible_witness :
    processServiceSyncJob [svcInactiveW] [] 5 respW = .ok [] :=
  serviceSyncJob_skips_ineligible [svcInactiveW] [] 5
    (fun s hs => by injection hs with hs; subst hs; right; rfl) respW

/-! ### Scheduler (`ServiceSyncScheduler.scheduleServiceSyncJobs`)

The daily cron body: query the eligible services, then fan out one
`serviceSyncQueue.add` per service with a random delay and the job id
`daily-sync-${service.id}-${Date.now()}`.  `Math.random()` draws are a
stream `rand : Nat → ℚ` consumed in fan-out order; `now` is the
`Date.now()` value in epoch milliseconds. -/

/-- The selected columns forming the job payload. -/
structure ServiceSyncJobData where
  serviceId : Nat
  serviceName : List Char
  serviceType : Nat
  resStatusApiUrl : List Char
  resStatusApiKey : List Char
deriving DecidableEq, Repr

/-- The queue uniqueness key passed as `jobId`:
`` `daily-sync-${service.id}-${Date.now()}` ``. -/
def syncJobIdChars (serviceId now : Nat) : List Char :=
  "daily-sync-".data ++ natDigits serviceId ++ "-".data ++ natDigits now

/-- The calendar-day bucket of an epoch-millisecond instant
(86,400,000 ms per day); used to state the spec's "same day" notion. -/
def dayBucket (t : Nat) : Nat := t / 86400000

/-- One job as handed to `serviceSyncQueue.add`. -/
structure EnqueuedJob where
  name : List Char
  jobData : ServiceSyncJobData
  delay : ℚ
  jobId : List Char
deriving DecidableEq

/-- The `where` clause of the scheduler's query:
`status = 1 and type = SERVICE_TYPE.SHARED_HOSTING and deletedAt is null`. -/
def eligibleForSync (s : Service) : Bool :=
  s.status == 1 && s.type == SERVICE_TYPE_SHARED_HOSTING && s.deletedAt == none

/-- One `serviceSyncQueue.add(`sync-service-${service.id}`, jobData,
{delay, jobId})` call, with `r` the `Math.random()` draw used for the
delay `Math.random() * 30000`. -/
def mkSyncJob (s : Service) (r : ℚ) (now : Nat) : EnqueuedJob :=
  { name := "sync-service-".data ++ natDigits s.id,
    jobData := ⟨s.id, s.name, s.type, s.resStatusApiUrl, s.resStatusApiKey⟩,
    delay := r * 30000,
    jobId := syncJobIdChars s.id now }

/-- The `services.map(async (service) => ...)` fan-out: the i-th enqueue
consumes the i-th draw of the random stream. -/
def enqueueSyncJobs (rand : Nat → ℚ) (now : Nat) : List Service → Nat → List EnqueuedJob
  | [], _ => []
  | s :: rest, i => mkSyncJob s (rand i) now :: enqueueSyncJobs rand now rest (i + 1)

/-- The scheduler run body in the failure-free case: filter the eligible
services and enqueue one job per service (the `services.length === 0`
early return coincides with mapping over the empty list). -/
def scheduleServiceSyncJobs (services : List Service) (rand : Nat → ℚ) (now : Nat) :
    List EnqueuedJob :=
  enqueueSyncJobs rand now (services.filter eligibleForSync) 0

/-- C2 counterexample: the instants 0 ms and 1 ms lie in the same day
bucket, yet the scheduler's uniqueness keys for target 1 at those two
instants differ — a scheduler double-fire within one day does not reuse
the job id. -/
theorem syncJobId_not_day_bucketed :
    dayBucket 0 = dayBucket 1 ∧ syncJobIdChars 1 0 ≠ syncJobIdChars 1 1 := by
  exact ⟨rfl, by decide⟩

/-- C2 amended: the enqueue uniqueness key combines the target id with the
enqueue-time millisecond timestamp (`Date.now()`), not a day bucket: for a
fixed target, two enqueue calls carry the same job id exactly when they
happen in the same millisecond, so same-day double-fires at different
milliseconds produce distinct ids. -/
theorem syncJobId_collision_iff (sid t1 t2 : Nat) :
    syncJobIdChars sid t1 = syncJobIdChars sid t2 ↔ t1 = t2 := by
  constructor
  · intro h
    unfold syncJobIdChars at h
    exact natDigits_inj _ _ (List.append_cancel_left h)
  · rintro rfl
    rfl

theorem countP_enqueueSyncJobs (rand : Nat → ℚ) (now sid : Nat) :
    ∀ (l : List Service) (i : Nat),
      (enqueueSyncJobs rand now l i).countP (fun j => j.jobData.serviceId == sid) =
        l.countP (fun s => s.id == sid) := by
  intro l
  induction l with
  | nil => intro i; rfl
  | cons a t ih =>
    intro i
    rw [enqueueSyncJobs, List.countP_cons, List.countP_cons, ih (i + 1)]
    rfl

theorem countP_eq_ite_of_nodup_ids (l : List Service)
    (hnd : (l.map (·.id)).Nodup) (s : Service) (hs : s ∈ l) (p : Service → Bool) :
    l.countP (fun a => a.id == s.id && p a) = if p s then 1 else 0 := by
  induction l with
  | nil => cases hs
  | cons a t ih =>
    rw [List.map_cons, List.nodup_cons] at hnd
    rw [List.countP_cons]
    rcases List.mem_cons.mp hs with rfl | hmem
    · have ht0 : t.countP (fun x => x.id == s.id && p x) = 0 := by
        rw [List.countP_eq_zero]
        intro x hx
        simp only [Bool.and_eq_true, beq_iff_eq, not_and]
        intro hid _
        exact hnd.1 (hid ▸ List.mem_map_of_mem (·.id) hx)
      rw [ht0]
      simp
    · have hane : a.id ≠ s.id := fun he => hnd.1 (he ▸ List.mem_map_of_mem (·.id) hmem)
      rw [ih hnd.2 hmem]
      simp [hane]

/-- C3.  Given in-range random draws and distinct service ids (the table's
primary key), a scheduler run enqueues jobs whose delays all lie in
[0, 30000) ms, and enqueues exactly one job per eligible service
(active, shared hosting, not soft-deleted) and zero jobs per ineligible
service. -/
theorem scheduler_one_job_per_eligible (services : List Service) (rand : Nat → ℚ)
    (now : Nat) (hrand : ∀ i, 0 ≤ rand i ∧ rand i < 1)
    (hids : (services.map (·.id)).Nodup) :
    (∀ j ∈ scheduleServiceSyncJobs services rand now, 0 ≤ j.delay ∧ j.delay < 30000) ∧
    ∀ s ∈ services, (scheduleServiceSyncJobs services rand now).countP
        (fun j => j.jobData.serviceId == s.id) = if eligibleForSync s then 1 else 0 := by
  constructor
  · suffices H : ∀ (l : List Service) (i : Nat), ∀ j ∈ enqueueSyncJobs rand now l i,
        0 ≤ j.delay ∧ j.delay < 30000 by
      exact fun j hj => H _ 0 j hj
    intro l
    induction l with
    | nil =>
      intro i j hj
      cases hj
    | cons a t ih =>
      intro i j hj
      rcases List.mem_cons.mp hj with rfl | hmem
      · constructor
        · exact mul_nonneg (hrand i).1 (by norm_num)
        · calc (rand i) * 30000 < 1 * 30000 :=
              mul_lt_mul_of_pos_right (hrand i).2 (by norm_num)
            _ = 30000 := one_mul _
      · exact ih (i + 1) j hmem
  · intro s hs
    rw [scheduleServiceSyncJobs, countP_enqueueSyncJobs, List.countP_filter]
    exact countP_eq_ite_of_nodup_ids services hids s hs eligibleForSync

/-- A fixed `Math.random()` stream for the witnesses. -/
def crandW : Nat → ℚ := fun _ => 1 / 2

theorem scheduler_one_job_per_eligible_witness :
    (scheduleServiceSyncJobs [svcW, svcInactiveW] crandW 0).countP
      (fun j => j.jobData.serviceId == svcW.id) = 1 := by
  have h := (scheduler_one_job_per_eligible [svcW, svcInactiveW] crandW 0
    (fun i => ⟨by norm_num [crandW], by norm_num [crandW]⟩) (by decide)).2 svcW
    (by decide)
  simpa using h

/-! ### Scheduler overlap guard (`isRunning`) and `triggerManualSync` -/

/-- The scheduler's private mutable state. -/
structure SchedulerState where
  isRunning : Bool
deriving DecidableEq, Repr

/-- The entry check `if (this.isRunning) { log; return; } this.isRunning =
true`: returns the updated state and whether the run body was entered. -/
def runEntryCheck (st : SchedulerState) : SchedulerState × Bool :=
  if st.isRunning then (st, false) else ({ isRunning := true }, true)

/-- The `finally { this.isRunning = false }` clause. -/
def runFinally (_ : SchedulerState) : SchedulerState :=
  { isRunning := false }

/-- A whole invocation of `scheduleServiceSyncJobs`: the entry check,
then — only if entered — the run body followed by the `finally` release.
Returns the final state and the jobs this invocation enqueued. -/
def scheduleServiceSyncJobsGuarded (st : SchedulerState) (services : List Service)
    (rand : Nat → ℚ) (now : Nat) : SchedulerState × List EnqueuedJob :=
  match runEntryCheck st with
  | (st', false) => (st', [])
  | (st', true) => (runFinally st', scheduleServiceSyncJobs services rand now)

/-- `triggerManualSync` just awaits the same run body
(`await this.scheduleServiceSyncJobs()`). -/
def triggerManualSync (st : SchedulerState) (services : List Service)
    (rand : Nat → ℚ) (now : Nat) : SchedulerState × List EnqueuedJob :=
  scheduleServiceSyncJobsGuarded st services rand now

/-- C7.  The run body is re-entrancy guarded: entering a fresh run flips
`isRunning` on, so an invocation arriving while a run is in progress
(state `isRunning = true`) returns at once with no jobs and the state
unchanged — independently of the service table — and is not queued; a
completed run ends with the guard released (`isRunning = false`); the
manual trigger is the very same guarded body. -/
theorem scheduler_overlap_guard :
    runEntryCheck ⟨false⟩ = (⟨true⟩, true) ∧
    (∀ services rand now,
      scheduleServiceSyncJobsGuarded ⟨true⟩ services rand now = (⟨true⟩, [])) ∧
    (∀ services rand now,
      (scheduleServiceSyncJobsGuarded ⟨false⟩ services rand now).1 = ⟨false⟩ ∧
      (scheduleServiceSyncJobsGuarded ⟨false⟩ services rand now).2 =
        scheduleServiceSyncJobs services rand now) ∧
    ∀ st services rand now,
      triggerManualSync st services rand now =
        scheduleServiceSyncJobsGuarded st services rand now := by
  exact ⟨rfl, fun _ _ _ => rfl, fun _ _ _ => ⟨rfl, rfl⟩, fun _ _ _ _ => rfl⟩

/-! ### Scheduler fan-out with per-target enqueue outcomes
(`Promise.allSettled`) -/

/-- The fan-out where the i-th `serviceSyncQueue.add` may reject;
`fails i = true` models a rejected enqueue promise.  `Promise.allSettled`
collects one outcome per service, never short-circuiting. -/
def enqueueSyncJobsSettled (rand : Nat → ℚ) (now : Nat) (fails : Nat → Bool) :
    List Service → Nat → List (Except String EnqueuedJob)
  | [], _ => []
  | s :: rest, i =>
    (if fails i then .error "enqueue failed" else .ok (mkSyncJob s (rand i) now)) ::
      enqueueSyncJobsSettled rand now fails rest (i + 1)

/-- The run summary: the settled outcomes plus the logged counts
`successful` (fulfilled) and `failed` (rejected). -/
structure SyncScheduleSummary where
  results : List (Except String EnqueuedJob)
  successful : Nat
  failed : Nat

/-- The run body with enqueue failures: filter the eligible services,
fan out, and count fulfilled vs rejected outcomes (the run itself
returns normally). -/
def scheduleServiceSyncJobsSettled (services : List Service) (rand : Nat → ℚ)
    (now : Nat) (fails : Nat → Bool) : SyncScheduleSummary :=
  let jobs := enqueueSyncJobsSettled rand now fails (services.filter eligibleForSync) 0
  { results := jobs,
    successful := (jobs.filter (fun r => r.isOk)).length,
    failed := (jobs.filter (fun r => !r.isOk)).length }

theorem enqueueSyncJobsSettled_length (rand : Nat → ℚ) (now : Nat)
    (fails : Nat → Bool) :
    ∀ (l : List Service) (i : Nat),
      (enqueueSyncJobsSettled rand now fails l i).length = l.length := by
  intro l
  induction l with
  | nil => intro i; rfl
  | cons a t ih =>
    intro i
    rw [enqueueSyncJobsSettled, List.length_cons, List.length_cons, ih (i + 1)]

theorem enqueueSyncJobsSettled_getElem (rand : Nat → ℚ) (now : Nat)
    (fails : Nat → Bool) :
    ∀ (l : List Service) (j i : Nat) (s : Service), l[i]? = some s →
      (enqueueSyncJobsSettled rand now fails l j)[i]? =
        some (if fails (j + i) then .error "enqueue failed"
          else .ok (mkSyncJob s (rand (j + i)) now)) := by
  intro l
  induction l with
  | nil =>
    intro j i s hs
    simp at hs
  | cons a t ih =>
    intro j i s hs
    cases i with
    | zero =>
      simp only [List.getElem?_cons_zero, Option.some.injEq] at hs
      subst hs
      simp [enqueueSyncJobsSettled]
    | succ i =>
      simp only [List.getElem?_cons_succ] at hs
      have hih := ih (j + 1) i s hs
      rw [enqueueSyncJobsSettled, List.getElem?_cons_succ, hih]
      have harith : j + 1 + i = j + (i + 1) := by omega
      rw [harith]

theorem filter_isOk_add_not_length (l : List (Except String EnqueuedJob)) :
    (l.filter (fun r => r.isOk)).length + (l.filter (fun r => !r.isOk)).length =
      l.length := by
  induction l with
  | nil => rfl
  | cons a t ih =>
    by_cases h : a.isOk <;> simp [List.filter_cons, h] <;> omega

/-- C8.  Enqueue outcomes are independent per target: whatever subset of
enqueues fails, the settled run records exactly one outcome per eligible
service, the i-th outcome depends only on that enqueue's own failure (a
sibling failure never aborts it), and the run returns a summary whose
success and failure counts partition the eligible services. -/
theorem scheduler_enqueue_outcomes_independent (services : List Service)
    (rand : Nat → ℚ) (now : Nat) (fails : Nat → Bool) :
    (scheduleServiceSyncJobsSettled services rand now fails).results.length =
      (services.filter eligibleForSync).length ∧
    (∀ (i : Nat) (s : Service), (services.filter eligibleForSync)[i]? = some s →
      (scheduleServiceSyncJobsSettled services rand now fails).results[i]? =
        some (if fails i then .error "enqueue failed"
          else .ok (mkSyncJob s (rand i) now))) ∧
    (scheduleServiceSyncJobsSettled services rand now fails).successful +
        (scheduleServiceSyncJobsSettled services rand now fails).failed =
      (services.filter eligibleForSync).length := by
  refine ⟨enqueueSyncJobsSettled_length rand now fails _ 0, ?_, ?_⟩
  · intro i s hs
    have hg := enqueueSyncJobsSettled_getElem rand now fails
      (services.filter eligibleForSync) 0 i s hs
    simpa using hg
  · refine (filter_isOk_add_not_length _).trans ?_
    exact enqueueSyncJobsSettled_length rand now fails _ 0

/-- A failure pattern for the witness: every enqueue rejects. -/
def cfailsW : Nat → Bool := fun _ => true

theorem scheduler_enqueue_outcomes_independent_witness :
    (scheduleServiceSyncJobsSettled [svcW] crandW 0 cfailsW).results[0]? =
      some (.error "enqueue failed") := by
  have h := (scheduler_enqueue_outcomes_independent [svcW] crandW 0 cfailsW).2.1 0 svcW
    (by decide)
  simpa [cfailsW] using h

/-! ### Queue retry policy (`src/server/lib/queue.ts`) -/

/-- The `backoff` option object. -/
structure BackoffOptions where
  kind : List Char
  delay : Nat
deriving DecidableEq, Repr

/-- `defaultJobOptions` of a queue. -/
structure JobOptions where
  removeOnComplete : Nat
  removeOnFail : Nat
  attempts : Nat
  backoff : BackoffOptions
deriving DecidableEq, Repr

/-- The `serviceSyncQueue` configuration: `removeOnComplete: 10,
removeOnFail: 5, attempts: 3, backoff: {type: 'exponential', delay: 2000}`. -/
def serviceSyncQueueOptions : JobOptions :=
  { removeOnComplete := 10, removeOnFail := 5, attempts := 3,
    backoff := { kind := "exponential".data, delay := 2000 } }

/-- What one finished job run looked like: how many tries ran, the backoff
waits between consecutive tries, and whether it completed. -/
structure JobRunOutcome where
  tries : Nat
  backoffWaits : List Nat
  completed : Bool
deriving DecidableEq, Repr

/-- Modelled from the spec: the retry machinery itself lives in the queue
library (BullMQ), not in this repository's sources; the spec fixes the
lifecycle — "A failed job is retried up to a configured attempt ceiling
with exponential backoff between attempts; after exhausting attempts it is
terminal-failed and retained (bounded count) for inspection."  `result k`
is the handler's outcome on the k-th try (tries are numbered from 1);
exponential backoff waits `delay * 2 ^ (k - 1)` ms after the k-th failed
try. -/
def runAttempts (result : Nat → Except String Unit) (delay : Nat) :
    Nat → Nat → JobRunOutcome
  | _, 0 => ⟨0, [], false⟩
  | attemptIdx, r + 1 =>
    match result attemptIdx with
    | .ok _ => ⟨1, [], true⟩
    | .error _ =>
      if r = 0 then ⟨1, [], false⟩
      else
        let rest := runAttempts result delay (attemptIdx + 1) r
        ⟨rest.tries + 1, delay * 2 ^ (attemptIdx - 1) :: rest.backoffWaits,
          rest.completed⟩

/-- Modelled from the spec: run one job under its options' attempt ceiling
and backoff policy. -/
def runJob (opts : JobOptions) (result : Nat → Except String Unit) : JobRunOutcome :=
  runAttempts result opts.backoff.delay 1 opts.attempts

/-- Modelled from the spec: `getFailed` surfaces the terminal-failed jobs
among the retained runs. -/
def getFailed (runs : List JobRunOutcome) : List JobRunOutcome :=
  runs.filter (fun r => !r.completed)

/-- C5.  When the job's target passes the eligibility guards but the
remote fetch yields a non-2xx response or a `success=false` body, the
handler raises; under the configured `serviceSyncQueue` policy
(attempts = 3, exponential backoff from 2000 ms) the always-failing job
runs exactly 3 tries with backoff waits 2000 ms then 4000 ms, ends
terminal-failed, and appears in the failed-jobs inspection list. -/
theorem serviceSync_retry_ceiling (services : List Service) (logs : List ServiceLog)
    (sid : Nat) (resp : FetchResponse) (service : Service) (rest : List Service)
    (hfind : services.filter (fun s => s.id == sid && s.deletedAt == none) =
      service :: rest)
    (htype : service.type = SERVICE_TYPE_SHARED_HOSTING)
    (hactive : service.status ≠ 0)
    (hfail : resp.ok = false ∨ resp.success = false) :
    (∃ e, processServiceSyncJob services logs sid resp = .error e) ∧
    runJob serviceSyncQueueOptions
        (fun _ => (processServiceSyncJob services logs sid resp).map (fun _ => ())) =
      ⟨3, [2000, 4000], false⟩ ∧
    runJob serviceSyncQueueOptions
        (fun _ => (processServiceSyncJob services logs sid resp).map (fun _ => ())) ∈
      getFailed [runJob serviceSyncQueueOptions
        (fun _ => (processServiceSyncJob services logs sid resp).map (fun _ => ()))] := by
  have herr : ∃ e, processServiceSyncJob services logs sid resp = .error e := by
    unfold processServiceSyncJob
    rw [hfind]
    dsimp only
    split
    · rename_i ht
      exact absurd htype ht
    · split
      · exact ⟨_, rfl⟩
      · rename_i hok
        split
        · exact ⟨_, rfl⟩
        · rename_i hsc
          rcases hfail with hf | hf
          · exact absurd hf hok
          · exact absurd hf hsc
  rcases herr with ⟨e, he⟩
  have hmap : (processServiceSyncJob services logs sid resp).map
      (fun _ => ()) = Except.error e := by rw [he]; rfl
  have hrun : runJob serviceSyncQueueOptions
      (fun _ => (processServiceSyncJob services logs sid resp).map (fun _ => ())) =
      ⟨3, [2000, 4000], false⟩ := by
    simp [runJob, runAttempts, serviceSyncQueueOptions, hmap]
  refine ⟨⟨e, he⟩, hrun, ?_⟩
  rw [hrun]
  simp [getFailed]

/-- A remote response with a non-2xx HTTP status for the retry witness. -/
def respFailW : FetchResponse := ⟨false, 500, true, []⟩

theorem serviceSync_retry_ceiling_witness :
    runJob serviceSyncQueueOptions
        (fun _ => (processServiceSyncJob [svcW] [] 7 respFailW).map (fun _ => ())) =
      ⟨3, [2000, 4000], false⟩ :=
  (serviceSync_retry_ceiling [svcW] [] 7 respFailW svcW []
    (by decide) rfl (by decide) (Or.inl rfl)).2.1

/-! ### Message broker (`src/server/whatsapp/services/messageBroker.ts`)

The broker's in-process `messageQueue : Map<string, TriggerMessage>` is an
association list; publishing is a side effect outside the state, and the
arrival of result envelopes on the Redis result channel is the
environment's event stream: `evs k` is the list of `handleMessageResult`
envelopes processed before the poll at tick `k` (one tick = one 100 ms
`setTimeout` hop of `waitForResult`). -/

inductive TriggerStatus
  | pending
  | sent
  | failed
deriving DecidableEq, Repr

structure TriggerMessage where
  id : String
  groupName : String
  message : String
  timestamp : Nat
  status : TriggerStatus
  retryCount : Nat
  maxRetries : Nat
deriving DecidableEq, Repr

structure MessageResult where
  messageId : String
  success : Bool
  error : Option String
deriving DecidableEq, Repr

/-- `this.messageQueue.get(messageId)`. -/
def lookupMsg (q : List (String × TriggerMessage)) (k : String) :
    Option TriggerMessage :=
  (q.find? (fun e => e.1 == k)).map (·.2)

/-- `this.messageQueue.set(messageId, triggerMessage)`: JavaScript `Map.set`
replaces an existing binding and otherwise appends. -/
def mapSet (q : List (String × TriggerMessage)) (k : String) (v : TriggerMessage) :
    List (String × TriggerMessage) :=
  if q.any (fun e => e.1 == k) then
    q.map (fun e => if e.1 == k then (k, v) else e)
  else q ++ [(k, v)]

/-- `handleMessageResult`: look up the entry by the envelope's `messageId`
and, when present, set its status to `sent` or `failed` according to the
envelope's success flag (absent id: no-op). -/
def handleMessageResult (q : List (String × TriggerMessage)) (res : MessageResult) :
    List (String × TriggerMessage) :=
  q.map (fun e =>
    if e.1 == res.messageId then
      (e.1, { e.2 with status := if res.success then .sent else .failed })
    else e)

/-- Processing a batch of result envelopes in arrival order. -/
def applyResults (q : List (String × TriggerMessage)) (evs : List MessageResult) :
    List (String × TriggerMessage) :=
  evs.foldl handleMessageResult q

/-- The resolution value built when the polled entry is no longer
pending: `success := status === 'sent'`, `error := status === 'failed' ?
'Message failed to send' : undefined`. -/
def resolveResult (messageId : String) (m : TriggerMessage) : MessageResult :=
  { messageId := messageId,
    success := m.status == .sent,
    error := if m.status == .failed then some "Message failed to send" else none }

/-- The `checkResult` poll loop of `waitForResult`: at tick `k`
(elapsed time `100 * k` ms) read the entry; a non-pending status resolves
it; else, past the timeout, resolve with the timeout failure; else sleep
100 ms and poll again. -/
def checkResult (messageId : String) (obs : Nat → Option TriggerMessage)
    (timeout k : Nat) : MessageResult :=
  match obs k with
  | some m =>
    if m.status ≠ TriggerStatus.pending then resolveResult messageId m
    else if 100 * k > timeout then ⟨messageId, false, some "Timeout waiting for result"⟩
    else checkResult messageId obs timeout (k + 1)
  | none =>
    if 100 * k > timeout then ⟨messageId, false, some "Timeout waiting for result"⟩
    else checkResult messageId obs timeout (k + 1)
termination_by (timeout + 100) - 100 * k
decreasing_by all_goals omega

/-- `waitForResult(messageId, timeout)` starts polling at elapsed time 0. -/
def waitForResult (messageId : String) (obs : Nat → Option TriggerMessage)
    (timeout : Nat) : MessageResult :=
  checkResult messageId obs timeout 0

/-- The `TriggerMessage` freshly created by `sendTriggerToGroup`. -/
def mkPendingTrigger (messageId groupName message : String) (ts : Nat) :
    TriggerMessage :=
  ⟨messageId, groupName, message, ts, .pending, 0, 3⟩

/-- The value `sendTriggerToGroup` resolves with. -/
structure SendResponse where
  success : Bool
  messageId : Option String
  error : Option String
deriving DecidableEq, Repr

/-- `sendTriggerToGroup`: create the pending entry under the generated id
(passed here as `messageId`), store it, publish (a transport side effect
outside the state), await `waitForResult` with the 10-second timeout
against the entry as the event stream updates it, and shape the reply. -/
def sendTriggerToGroup (q : List (String × TriggerMessage))
    (messageId groupName message : String) (ts : Nat)
    (evs : Nat → List MessageResult) : SendResponse :=
  let q1 := mapSet q messageId (mkPendingTrigger messageId groupName message ts)
  let result := waitForResult messageId
    (fun k => lookupMsg (applyResults q1 (evs k)) messageId) 10000
  { success := result.success,
    messageId := if result.success then some messageId else none,
    error := if result.success then none
      else some (result.error.getD "Failed to send message to group") }

theorem lookupMsg_map_update (q : List (String × TriggerMessage)) (k : String)
    (v : TriggerMessage) :
    lookupMsg (q.map (fun e => if e.1 == k then (k, v) else e)) k =
      if q.any (fun e => e.1 == k) then some v else lookupMsg q k := by
  induction q with
  | nil => rfl
  | cons e t ih =>
    by_cases he : e.1 == k
    · simp [lookupMsg, List.find?, he, List.any_cons]
    · simp only [List.map_cons, if_neg he, List.any_cons]
      simp only [lookupMsg, List.find?] at ih ⊢
      simp only [Bool.not_eq_true] at he
      simp only [he, Bool.false_or]
      exact ih

theorem lookupMsg_mapSet_self (q : List (String × TriggerMessage)) (k : String)
    (v : TriggerMessage) :
    lookupMsg (mapSet q k v) k = some v := by
  rw [mapSet]
  by_cases ha : q.any (fun e => e.1 == k)
  · rw [if_pos ha, lookupMsg_map_update, if_pos ha]
  · rw [if_neg ha]
    have hnone : q.find? (fun e => e.1 == k) = none := by
      rw [List.find?_eq_none]
      intro e he
      exact fun hk => ha (List.any_of_mem he hk)
    rw [lookupMsg, List.find?_append, hnone]
    simp [List.find?]

theorem lookupMsg_handleMessageResult_ne (q : List (String × TriggerMessage))
    (res : MessageResult) (k : String) (hne : res.messageId ≠ k) :
    lookupMsg (handleMessageResult q res) k = lookupMsg q k := by
  induction q with
  | nil => rfl
  | cons e t ih =>
    by_cases he : e.1 == res.messageId
    · have hek : (e.1 == k) = false := by
        rw [beq_iff_eq] at he
        rw [Bool.eq_false_iff]
        simp [he, hne]
      have hkk : (k == k) = true := beq_self_eq_true k
      simp only [handleMessageResult, List.map_cons, if_pos he] at *
      simp only [lookupMsg, List.find?, hek] at *
      have : (res.messageId == k) = false := by
        rw [Bool.eq_false_iff]
        simp [hne]
      simp_all [handleMessageResult, lookupMsg]
    · simp only [handleMessageResult, List.map_cons, if_neg he]
      by_cases hek : e.1 == k
      · simp [lookupMsg, List.find?, hek]
      · simp only [Bool.not_eq_true] at hek
        simp only [lookupMsg, List.find?, hek]
        simpa [handleMessageResult, lookupMsg] using ih

theorem lookupMsg_handleMessageResult_eq (q : List (String × TriggerMessage))
    (res : MessageResult) (k : String) (heq : res.messageId = k) :
    lookupMsg (handleMessageResult q res) k =
      (lookupMsg q k).map (fun m =>
        { m with status := if res.success then .sent else .failed }) := by
  subst heq
  induction q with
  | nil => rfl
  | cons e t ih =>
    by_cases he : e.1 == res.messageId
    · simp [handleMessageResult, lookupMsg, List.find?, he, beq_iff_eq.mp he]
    · simp only [Bool.not_eq_true] at he
      simpa [handleMessageResult, lookupMsg, List.find?, he] using ih

theorem lookupMsg_applyResults_quiet (evs : List MessageResult)
    (q : List (String × TriggerMessage)) (k : String)
    (h : ∀ e ∈ evs, e.messageId ≠ k) :
    lookupMsg (applyResults q evs) k = lookupMsg q k := by
  induction evs generalizing q with
  | nil => rfl
  | cons e t ih =>
    rw [applyResults, List.foldl_cons]
    rw [show List.foldl handleMessageResult (handleMessageResult q e) t =
      applyResults (handleMessageResult q e) t from rfl]
    rw [ih _ (fun x hx => h x (List.mem_cons_of_mem e hx)),
      lookupMsg_handleMessageResult_ne _ _ _ (h e (List.mem_cons_self e t))]

theorem checkResult_of_pending (messageId : String)
    (obs : Nat → Option TriggerMessage) (timeout : Nat) :
    ∀ n k, timeout + 100 - 100 * k ≤ n → 100 * k ≤ timeout + 100 →
    (∀ j, k ≤ j → 100 * j ≤ timeout + 100 → ∀ m, obs j = some m →
      m.status = .pending) →
    checkResult messageId obs timeout k =
      ⟨messageId, false, some "Timeout waiting for result"⟩ := by
  intro n
  induction n with
  | zero =>
    intro k hm hb hq
    rw [checkResult]
    have hgt : 100 * k > timeout := by omega
    cases hobs : obs k with
    | none => simp [hgt]
    | some m =>
      have hp := hq k (le_refl k) hb m hobs
      simp [hp, hgt]
  | succ n ih =>
    intro k hm hb hq
    rw [checkResult]
    by_cases hgt : 100 * k > timeout
    · cases hobs : obs k with
      | none => simp [hgt]
      | some m =>
        have hp := hq k (le_refl k) hb m hobs
        simp [hp, hgt]
    · have hrec := ih (k + 1) (by omega) (by omega)
        (fun j hj => hq j (by omega))
      cases hobs : obs k with
      | none => simp [hgt, hrec]
      | some m =>
        have hp := hq k (le_refl k) hb m hobs
        simp [hp, hgt, hrec]

/-- C4.  If no result envelope for the request id arrives within the
10-second window (ticks with elapsed time up to 10100 ms cover every poll
the loop makes), then: `sendTriggerToGroup` resolves — it does not throw —
with `success = false` and the timeout error; throughout the window the
pending entry stays in the map, untouched and still `pending`; and a
result envelope processed after the timeout still transitions the entry's
status to `sent`/`failed` according to its success flag. -/
theorem broker_timeout_contract (q : List (String × TriggerMessage))
    (messageId groupName message : String) (ts : Nat)
    (evs : Nat → List MessageResult)
    (hquiet : ∀ k, 100 * k ≤ 10100 → ∀ e ∈ evs k, e.messageId ≠ messageId) :
    sendTriggerToGroup q messageId groupName message ts evs =
      ⟨false, none, some "Timeout waiting for result"⟩ ∧
    (∀ k, 100 * k ≤ 10100 →
      lookupMsg (applyResults (mapSet q messageId
          (mkPendingTrigger messageId groupName message ts)) (evs k)) messageId =
        some (mkPendingTrigger messageId groupName message ts)) ∧
    (∀ k, 100 * k ≤ 10100 → ∀ res : MessageResult, res.messageId = messageId →
      lookupMsg (handleMessageResult (applyResults (mapSet q messageId
          (mkPendingTrigger messageId groupName message ts)) (evs k)) res)
          messageId =
        some { mkPendingTrigger messageId groupName message ts with
          status := if res.success then .sent else .failed }) := by
  have hpend : ∀ k, 100 * k ≤ 10100 →
      lookupMsg (applyResults (mapSet q messageId
        (mkPendingTrigger messageId groupName message ts)) (evs k)) messageId =
      some (mkPendingTrigger messageId groupName message ts) := by
    intro k hk
    rw [lookupMsg_applyResults_quiet _ _ _ (hquiet k hk), lookupMsg_mapSet_self]
  refine ⟨?_, hpend, ?_⟩
  · have hwait : waitForResult messageId
        (fun k => lookupMsg (applyResults (mapSet q messageId
          (mkPendingTrigger messageId groupName message ts)) (evs k)) messageId)
        10000 = ⟨messageId, false, some "Timeout waiting for result"⟩ := by
      rw [waitForResult]
      exact checkResult_of_pending messageId _ 10000 (10000 + 100) 0 (by omega)
        (by omega) (fun j hj hjb m hm => by
          rw [hpend j hjb] at hm
          injection hm with hm
          rw [← hm]
          rfl)
    simp only [sendTriggerToGroup]
    rw [hwait]
    rfl
  · intro k hk res hres
    rw [lookupMsg_handleMessageResult_eq _ _ _ hres, hpend k hk]
    rfl

theorem broker_timeout_contract_witness :
    sendTriggerToGroup [] "trigger_1" "status-group" "hello" 0 (fun _ => []) =
      ⟨false, none, some "Timeout waiting for result"⟩ :=
  (broker_timeout_contract [] "trigger_1" "status-group" "hello" 0 (fun _ => [])
    (fun _ _ e he => absurd he (List.not_mem_nil e))).1

/-! ### Command interpreter (`CommandHandler.handleCommand`)

The dispatcher normalises the text (`trim` then `toLowerCase`), requires
the `!systrack` token, and routes on the remainder.  The source strips
matched tokens with `String.replace(tok, '')`, which replaces only the
first occurrence; under the `startsWith` guard that first occurrence sits
at position 0, so stripping is `List.drop tok.length`.  The data-touching
sub-handlers (`handleHealthCheck`, `handleStatusCheck`,
`handleServicesList`, `handleServiceDetails`, `handleServiceLogs`,
`handleServiceStatus`) are the environment: an `Except`-valued field
models that such a call may reject. -/

inductive Route
  | guidance
  | commandsList
  | help
  | healthCheck
  | statusOverview
  | servicesList
  | serviceDetail (identifier : List Char)
  | serviceLogsFor (identifier : List Char)
  | serviceStatusFor (identifier : List Char)
  | unknown (cmd : List Char)
deriving DecidableEq, Repr

/-- The fixed command token `!systrack`. -/
def cmdToken : List Char := "!systrack".data

/-- The dispatch performed by `handleCommand` lines 204-265. -/
def routeCommand (command : List Char) : Route :=
  let cleanCommand := jsToLower (jsTrim command)
  if startsWithChars cleanCommand cmdToken = false then .guidance
  else
    let actualCommand := jsTrim (cleanCommand.drop cmdToken.length)
    if actualCommand = "commands".data ∨ actualCommand = "list".data then .commandsList
    else if actualCommand = "help".data ∨ actualCommand = [] then .help
    else if actualCommand = "health".data then .healthCheck
    else if actualCommand = "status".data then .statusOverview
    else if actualCommand = "services".data then .servicesList
    else if startsWithChars actualCommand "service ".data then
      .serviceDetail (jsTrim (actualCommand.drop "service ".data.length))
    else if startsWithChars actualCommand "logs ".data then
      .serviceLogsFor (jsTrim (actualCommand.drop "logs ".data.length))
    else if startsWithChars actualCommand "service-status ".data then
      .serviceStatusFor (jsTrim (actualCommand.drop "service-status ".data.length))
    else .unknown actualCommand

/-- A bot reply: text plus an optional image attachment (bytes). -/
structure Reply where
  text : List Char
  imageBuffer : Option (List Nat)
deriving DecidableEq, Repr

/-- The sub-handlers `handleCommand` awaits; each may reject. -/
structure CommandHandlers where
  healthCheck : Except String (List Char)
  statusOverview : Except String (List Char)
  servicesList : Except String (List Char)
  serviceDetails : List Char → Except String (List Char)
  serviceLogsFor : List Char → Except String (List Char)
  serviceStatusFor : List Char → Except String Reply

/-- The no-prefix guidance reply text. -/
def guidanceText : List Char :=
  "Please use the !systrack prefix for commands. Type \"!systrack help\" to see available commands.".data

/-- The catch-all apology reply text. -/
def apologyText : List Char :=
  "Sorry, an error occurred while processing your command.".data

/-- The unknown-keyword reply text. -/
def unknownCommandText (cmd : List Char) : List Char :=
  "Unknown command: \"".data ++ cmd ++
    "\". Type \"!systrack help\" to see available commands.".data

/-- `getCommandsList()` (fixed text). -/
def commandsListText : List Char :=
  ("📋".data ++ (" *All Available Commands*\n\n*Health & Status:*\n" ++
    "• `!systrack health` - Check system health\n" ++
    "• `!systrack status` - Get system status overview\n\n*Services:*\n" ++
    "• `!systrack services` - List all services\n" ++
    "• `!systrack service <id|name>` - Get service details\n" ++
    "• `!systrack service-status <id|name>` - Get service status with charts\n" ++
    "• `!systrack logs <id|name>` - Get service logs\n\n*General:*\n" ++
    "• `!systrack help` - Show detailed help message\n" ++
    "• `!systrack commands` - Show this commands list\n\n*Quick Examples:*\n" ++
    "• `!systrack service 1` - Get details for service with ID 1\n" ++
    "• `!systrack service my-server` - Get details for service named \"my-server\"\n" ++
    "• `!systrack logs 1` - Get logs for service with ID 1\n" ++
    "• `!systrack logs my-server` - Get logs for service named \"my-server\"").data)

/-- `getHelpMessage()` (fixed text). -/
def helpMessageText : List Char :=
  ("🤖".data ++ (" *SysTrack WhatsApp Bot Help*\n\n*How to use:*\n" ++
    "All commands must start with `!systrack` " ++
    "prefix.\n\n*Health & Status:*\n" ++
    "• `!systrack health` - Check system health and get health score\n" ++
    "• `!systrack status` - Get system status overview with service counts\n\n" ++
    "*Services:*\n• `!systrack services` - List all services with their status\n" ++
    "• `!systrack service <id|name>` - Get detailed information about a specific service\n" ++
    "• `!systrack service-status <id|name>` - Get service status with charts and recent logs\n" ++
    "• `!systrack logs <id|name>` - Get recent logs for a specific service\n\n" ++
    "*General:*\n• `!systrack help` - Show this help message\n" ++
    "• `!systrack commands` - Show list of all commands\n\n*Examples:*\n" ++
    "• `!systrack service 1` - Get details for service with ID 1\n" ++
    "• `!systrack service my-server` - Get details for service named \"my-server\"\n" ++
    "• `!systrack service-status 1` - Get status chart for service with ID 1\n" ++
    "• `!systrack service-status my-server` - Get status chart for service named \"my-server\"\n" ++
    "• `!systrack logs 1` - Get logs for service with ID 1\n" ++
    "• `!systrack logs my-server` - Get logs for service named \"my-server\"\n\n" ++
    "*Note:* Type `!systrack commands` to see a quick list of all available commands.").data)

/-- The body of `handleCommand` inside its `try`: route, then produce the
reply, awaiting the routed sub-handler where one is involved. -/
def handleCommandBody (h : CommandHandlers) (command : List Char) :
    Except String Reply :=
  match routeCommand command with
  | .guidance => .ok ⟨guidanceText, none⟩
  | .commandsList => .ok ⟨commandsListText, none⟩
  | .help => .ok ⟨helpMessageText, none⟩
  | .healthCheck => h.healthCheck.map (fun t => ⟨t, none⟩)
  | .statusOverview => h.statusOverview.map (fun t => ⟨t, none⟩)
  | .servicesList => h.servicesList.map (fun t => ⟨t, none⟩)
  | .serviceDetail ident => (h.serviceDetails ident).map (fun t => ⟨t, none⟩)
  | .serviceLogsFor ident => (h.serviceLogsFor ident).map (fun t => ⟨t, none⟩)
  | .serviceStatusFor ident => h.serviceStatusFor ident
  | .unknown cmd => .ok ⟨unknownCommandText cmd, none⟩

/-- `handleCommand`: the body wrapped in the outer `try`/`catch` that
converts any rejection into the apology reply. -/
def handleCommand (h : CommandHandlers) (command : List Char) : Reply :=
  match handleCommandBody h command with
  | .ok r => r
  | .error _ => ⟨apologyText, none⟩

/-- C9.  `!systrack service 5` routes to the target-detail sub-handler
with identifier `5`; `!SYSTRACK HELP` routes to the help reply (prefix and
keyword matching are case-insensitive); an input without the prefix, such
as `hello`, yields the guidance reply as a normal result. -/
theorem commandRouting_examples :
    routeCommand "!systrack service 5".data = .serviceDetail "5".data ∧
    (∀ h : CommandHandlers, handleCommandBody h "!systrack service 5".data =
      (h.serviceDetails "5".data).map (fun t => ⟨t, none⟩)) ∧
    routeCommand "!SYSTRACK HELP".data = .help ∧
    (∀ h : CommandHandlers, handleCommand h "!SYSTRACK HELP".data =
      ⟨helpMessageText, none⟩) ∧
    routeCommand "hello".data = .guidance ∧
    ∀ h : CommandHandlers, handleCommand h "hello".data = ⟨guidanceText, none⟩ := by
  refine ⟨by decide, fun h => rfl, by decide, fun h => rfl, by decide, fun h => rfl⟩

/-- C10.  `handleCommand` is total at its boundary: for every handler
environment and input it yields a reply value — the routed body's reply
when the body succeeds, and the apology reply when any awaited
sub-handler rejects; no rejection escapes. -/
theorem handleCommand_total (h : CommandHandlers) (command : List Char) :
    (∃ r, handleCommandBody h command = .ok r ∧ handleCommand h command = r) ∨
    (∃ e, handleCommandBody h command = .error e ∧
      handleCommand h command = ⟨apologyText, none⟩) := by
  cases hb : handleCommandBody h command with
  | ok r => exact Or.inl ⟨r, rfl, by unfold handleCommand; rw [hb]⟩
  | error e => exact Or.inr ⟨e, rfl, by unfold handleCommand; rw [hb]⟩

end Systrack
